import Mathlib

/-!
Shallow embedding of cmd.py, an interactive shell for bulk selecting and
moving filesystem entries.

Modelling conventions: Python strings are Lean String values, compared by
code points (the List Char lexicographic order on toList, which matches
Python string comparison); Python int is Int; the Python set of marked
paths is a Lean list with membership semantics; filesystem effects go
through an explicit gateway record, and the move operation additionally
records a trace of its gateway calls so that theorems can count effects.
Raised StartOverException / ExitException are Except.error values.
-/

/-- tuple_leave_unique from cmd.py: drop duplicates keeping the first
occurrence, as dict.fromkeys does. -/
def tuple_leave_unique (tupl : List String) : List String :=
  tupl.foldl (fun acc x => if x ∈ acc then acc else acc ++ [x]) []

/-- Digits of a Python decimal literal; none when empty or when any
character is not a digit. -/
def pyDigits : List Char → Option Nat
  | [] => none
  | cs => cs.foldl
      (fun acc c =>
        match acc with
        | none => none
        | some n => if c.isDigit then some (n * 10 + (c.toNat - 48)) else none)
      (some 0)

/-- Python int(line) on plain decimal literals with an optional sign;
none models the ValueError raised on non numeric input.  (Python also
strips surrounding whitespace and accepts underscores between digits;
the menu inputs settled here are plain literals.) -/
def pyInt (line : String) : Option Int :=
  match line.toList with
  | '-' :: rest => (pyDigits rest).map (fun n => -(n : Int))
  | '+' :: rest => (pyDigits rest).map (fun n => (n : Int))
  | cs => (pyDigits cs).map (fun n => (n : Int))

/-- Python slice index normalisation: a negative index counts from the end
and the result is clamped to the interval from 0 to the length. -/
def pyIndexNorm (len : Nat) (i : Int) : Nat :=
  if i < 0 then ((len : Int) + i).toNat else min i.toNat len

/-- Python list slice xs[a:b]. -/
def pySlice {α : Type} (xs : List α) (a b : Int) : List α :=
  (xs.take (pyIndexNorm xs.length b)).drop (pyIndexNorm xs.length a)

/-- Python string comparison: lexicographic on code points, which is the
List Char linear order on toList. -/
def str_lt (a b : String) : Prop := a.toList < b.toList

/-- Python string comparison, non strict form. -/
def str_le (a b : String) : Prop := a.toList ≤ b.toList

instance str_lt_decidable : DecidableRel str_lt :=
  fun a b => inferInstanceAs (Decidable (a.toList < b.toList))

instance str_le_decidable : DecidableRel str_le :=
  fun a b => inferInstanceAs (Decidable (a.toList ≤ b.toList))

instance str_le_total : IsTotal String str_le :=
  ⟨fun a b => le_total a.toList b.toList⟩

instance str_le_trans : IsTrans String str_le :=
  ⟨fun _ _ _ h1 h2 => le_trans h1 h2⟩

/-- Python tuple comparison on (title, value) pairs: first component
first, second breaks ties. -/
def pair_le (x y : String × String) : Prop :=
  str_lt x.1 y.1 ∨ (x.1.toList = y.1.toList ∧ str_le x.2 y.2)

instance pair_le_decidable : DecidableRel pair_le := fun x y => by
  unfold pair_le
  infer_instance

instance pair_le_total : IsTotal (String × String) pair_le := by
  refine ⟨fun x y => ?_⟩
  rcases lt_trichotomy x.1.toList y.1.toList with h | h | h
  · exact Or.inl (Or.inl h)
  · rcases le_total x.2.toList y.2.toList with h2 | h2
    · exact Or.inl (Or.inr ⟨h, h2⟩)
    · exact Or.inr (Or.inr ⟨h.symm, h2⟩)
  · exact Or.inr (Or.inl h)

instance pair_le_trans : IsTrans (String × String) pair_le := by
  refine ⟨fun x y z h1 h2 => ?_⟩
  rcases h1 with h1 | ⟨h1, h1b⟩ <;> rcases h2 with h2 | ⟨h2, h2b⟩
  · exact Or.inl (lt_trans h1 h2)
  · exact Or.inl (lt_of_lt_of_le h1 (le_of_eq h2))
  · exact Or.inl (lt_of_le_of_lt (le_of_eq h1) h2)
  · exact Or.inr ⟨h1.trans h2, le_trans h1b h2b⟩

/-- Python sorted on a list of (title, value) tuples.  Any stable sort by
the tuple order agrees with Python sorted. -/
def sorted_pairs (xs : List (String × String)) : List (String × String) :=
  List.insertionSort pair_le xs

/-- Python sorted(set(xs)) on strings. -/
def sorted_set (xs : List String) : List String :=
  List.insertionSort str_le (tuple_leave_unique xs)

/-- format_listing from cmd.py: directory names prefixed with a d marker,
file names with an f marker, the whole list Python sorted on the
(title, name) pairs. -/
def format_listing (files dirs : List String) : List (String × String) :=
  sorted_pairs ((dirs.map fun d => ("d " ++ d, d)) ++ (files.map fun f => ("f " ++ f, f)))

/-- StartOverException and ExitException from cmd.py. -/
inductive Signal where
  | startOver
  | exitProgram
  deriving DecidableEq

/-- MenuConfirm from cmd.py. -/
structure MenuConfirm where
  prompt : String
  is_confirmed : Option Bool
  error : Option String
  is_fulfilled : Bool
  deriving DecidableEq

/-- MenuConfirm.__init__ from cmd.py. -/
def MenuConfirm.init (prompt : String) : MenuConfirm :=
  { prompt := prompt, is_confirmed := none, error := none, is_fulfilled := false }

/-- The error message MenuConfirm.input stores on invalid input. -/
def confirm_error_message : String := "Enter either \"y\" or \"n\"."

/-- MenuConfirm.input from cmd.py. -/
def MenuConfirm.input (c : MenuConfirm) (line : String) : MenuConfirm :=
  if ¬ (line = "y" ∨ line = "n") then
    { c with error := some confirm_error_message }
  else
    { c with is_confirmed := some (line == "y"), is_fulfilled := true }

/-- MenuListing from cmd.py.  page_items and page_handlers are stored on
the Python object but are recomputed by _render_page after construction
and after every handled input, so they always equal the render of the
current state; they are modelled as the derived function render_page. -/
structure MenuListing where
  title : List String
  choices : List (String × String)
  single_choice : Bool
  chosen : List String
  page_size : Nat
  with_exit : Bool
  read_only : Bool
  error : Option String
  page : Int
  is_fulfilled : Bool
  deriving DecidableEq

/-- MenuListing.__init__ from cmd.py (the Python code also asserts that a
nonempty initial chosen implies not single_choice). -/
def MenuListing.init (title : List String) (choices : List (String × String))
    (single_choice : Bool) (chosen : List String) (page_size : Nat)
    (with_exit : Bool) (read_only : Bool) : MenuListing :=
  { title := title, choices := choices, single_choice := single_choice,
    chosen := chosen, page_size := page_size, with_exit := with_exit,
    read_only := read_only, error := none, page := 0, is_fulfilled := false }

/-- MenuListing.page_count from cmd.py: int(math.ceil(len(choices) /
page_size)), as a Nat ceiling division.  Python raises ZeroDivisionError
for page_size zero; every construction in cmd.py uses the default
page_size 7, and the page invariant below assumes a positive page_size. -/
def MenuListing.page_count (l : MenuListing) : Nat :=
  (l.choices.length + l.page_size - 1) / l.page_size

/-- The input handlers a MenuListing binds to its rendered items: toggle a
choice value, fulfill (the Done row), change the page, or raise the start
over signal (the Cancel row). -/
inductive Handler where
  | toggle (value : String)
  | fulfill
  | incPage (inc : Int)
  | exit
  deriving DecidableEq

/-- MenuListing._render_page from cmd.py: the visible items and their
handlers for the current page, in the fixed order data rows, Done,
Previous page, Next page, Cancel and start over. -/
def MenuListing.render_page (l : MenuListing) : List String × List Handler :=
  let offset : Int := l.page * (l.page_size : Int)
  let cs := pySlice l.choices offset (offset + (l.page_size : Int))
  let items := cs.map fun tv =>
    if l.single_choice || l.read_only then tv.1
    else (if tv.2 ∈ l.chosen then "[*] " else "[ ] ") ++ tv.1
  let handlers := cs.map fun tv => Handler.toggle tv.2
  let items := items ++ (if !l.read_only && !l.single_choice then ["Done"] else [])
  let handlers := handlers ++ (if !l.read_only && !l.single_choice then [Handler.fulfill] else [])
  let items := items ++ (if 0 < l.page then ["Previous page"] else [])
  let handlers := handlers ++ (if 0 < l.page then [Handler.incPage (-1)] else [])
  let hasNext := offset + (l.page_size : Int) < (l.choices.length : Int)
  let items := items ++ (if hasNext then ["Next page"] else [])
  let handlers := handlers ++ (if hasNext then [Handler.incPage 1] else [])
  let items := items ++ (if l.with_exit then ["Cancel and start over"] else [])
  let handlers := handlers ++ (if l.with_exit then [Handler.exit] else [])
  (items, handlers)

/-- The rendered item labels of the current page. -/
def MenuListing.page_items (l : MenuListing) : List String :=
  l.render_page.1

/-- The input handlers of the current page. -/
def MenuListing.page_handlers (l : MenuListing) : List Handler :=
  l.render_page.2

/-- MenuListing._toggle_choice from cmd.py. -/
def MenuListing.toggle_choice (l : MenuListing) (value : String) : MenuListing :=
  if l.read_only then l
  else
    let l2 :=
      if value ∈ l.chosen then
        { l with chosen := tuple_leave_unique (l.chosen.filter (fun c => c != value)) }
      else
        { l with chosen := tuple_leave_unique (l.chosen ++ [value]) }
    if l2.single_choice then { l2 with is_fulfilled := true } else l2

/-- Dispatch of a bound handler: _toggle_choice, _fulfill, _inc_page or
_exit from cmd.py.  _exit raises StartOverException. -/
def MenuListing.run_handler (l : MenuListing) : Handler → Except Signal MenuListing
  | Handler.toggle v => Except.ok (l.toggle_choice v)
  | Handler.fulfill => Except.ok { l with is_fulfilled := true }
  | Handler.incPage inc => Except.ok { l with page := l.page + inc }
  | Handler.exit => Except.error Signal.startOver

/-- The error message MenuListing.input stores on invalid input. -/
def invalid_input_message : String :=
  "Invalid input. Enter a number of the menu item you\x27d like to choose."

/-- MenuListing.input from cmd.py: parse the line as an int, reject a non
positive index (so that input 0 does not wrap to the last item) and an
index beyond the rendered handlers, then clear the error, run the chosen
handler and re-render.  The re-render is implicit here because page_items
and page_handlers are derived from the state. -/
def MenuListing.input (l : MenuListing) (line : String) : Except Signal MenuListing :=
  match pyInt line with
  | none => Except.ok { l with error := some invalid_input_message }
  | some n =>
    if n - 1 < 0 then Except.ok { l with error := some invalid_input_message }
    else
      match l.page_handlers[(n - 1).toNat]? with
      | none => Except.ok { l with error := some invalid_input_message }
      | some h => MenuListing.run_handler { l with error := none } h

/-- Feeding a sequence of raw input lines to a MenuListing.  When a line
makes the listing raise (start over or exit), the listing is abandoned by
the driver; the state at the raise is retained here so that invariants
about reachable states can be stated over arbitrary input sequences. -/
def MenuListing.steps (l : MenuListing) : List String → MenuListing
  | [] => l
  | line :: rest =>
    match l.input line with
    | Except.ok l2 => MenuListing.steps l2 rest
    | Except.error _ => MenuListing.steps l rest

/-- The filesystem gateway consumed by the listing and directory commands:
canonicalisation, child listing (none models the OSError of a missing or
non directory path) and the directory check. -/
structure FsGateway where
  realpath : String → String
  listChildren : String → Option (List String × List String)
  isDir : String → Bool

/-- ListCommand.list_dir from cmd.py: canonicalise, read the immediate
children (files, dirs) of the path, optionally drop files and append the
parent entry, and format the listing. -/
def list_dir (fs : FsGateway) (path : String) (only_dirs with_parent : Bool) :
    Except String (List (String × String)) :=
  match fs.listChildren (fs.realpath path) with
  | some fd =>
    let files := if only_dirs then [] else fd.1
    let dirs := if with_parent then fd.2 ++ [".."] else fd.2
    Except.ok (format_listing files dirs)
  | none => Except.error "Not an existing dir"

/-- MoverState from cmd.py: the session state.  The Python cd property
reads and writes the live process working directory; it is modelled as an
explicit field. -/
structure MoverState where
  cd : String
  marked : List String
  deriving DecidableEq

/-- os.path.join for the two argument uses in cmd.py: an absolute second
component replaces the first, otherwise a single separator joins them. -/
def os_path_join (a b : String) : String :=
  if b.toList.head? = some '/' then b
  else if a.toList = [] ∨ a.toList.getLast? = some '/' then a ++ b
  else a ++ "/" ++ b

/-- Python path.rstrip of the separator: drop trailing slash characters. -/
def rstrip_slash (s : String) : String :=
  String.mk (s.toList.reverse.dropWhile (fun c => c == '/')).reverse

/-- os.path.basename: the part after the last separator. -/
def os_path_basename (s : String) : String :=
  String.mk (s.toList.reverse.takeWhile (fun c => c != '/')).reverse

/-- ChangeDirCommand.change_dir from cmd.py: resolve the target relative
to the current directory to canonical form; raise ValueError (modelled as
Except.error with the message) when the result is not an existing
directory, performing no state change; otherwise set the current
directory. -/
def change_dir (fs : FsGateway) (st : MoverState) (arg : String) : Except String MoverState :=
  let next_cd := fs.realpath (os_path_join st.cd arg)
  if fs.isDir next_cd then Except.ok { st with cd := next_cd }
  else Except.error ("Not an existing directory: " ++ next_cd)

/-- The real filesystem, as the set of existing canonical paths. -/
structure Fs where
  existing : List String
  deriving DecidableEq

/-- One call to the filesystem gateway, recorded in a trace so that
theorems can count the filesystem effects of an operation. -/
inductive FsOp where
  | getcwd
  | pathExists (p : String)
  | rename (src dst : String)
  deriving DecidableEq

/-- The destination of one marked path in MovemarkedCommand._move from
cmd.py: the final path component (after stripping trailing separators)
joined onto the current directory. -/
def mv_target (cd p : String) : String :=
  os_path_join cd (os_path_basename (rstrip_slash p))

/-- Loop body of MovemarkedCommand._move from cmd.py over the sorted
marked paths.  Each iteration reads the current directory, computes the
target name (rstrip the separator, then basename), joins it onto the
current directory and checks its existence: an existing target raises
OSError File exists (the path stays marked, nothing is overwritten); a
missing source makes os.rename raise (the path stays marked); otherwise
os.rename moves the path and it is discarded from the marked set.  Every
iteration yields one status line and processing continues.  Returns the
yielded lines, the filesystem, the remaining marked paths and the trace
of gateway calls. -/
def mv_loop (cd : String) (fs : Fs) (marked : List String) (trace : List FsOp) :
    List String → List String × Fs × List String × List FsOp
  | [] => ([], fs, marked, trace)
  | p :: rest =>
    let target_path := mv_target cd p
    if target_path ∈ fs.existing then
      let r := mv_loop cd fs marked (trace ++ [FsOp.getcwd, FsOp.pathExists target_path]) rest
      (("Unable to move path: " ++ p ++ ": File exists") :: r.1, r.2)
    else if p ∈ fs.existing then
      let fs2 : Fs := ⟨fs.existing.filter (fun q => q != p) ++ [target_path]⟩
      let marked2 := marked.filter (fun q => q != p)
      let r := mv_loop cd fs2 marked2
        (trace ++ [FsOp.getcwd, FsOp.pathExists target_path, FsOp.rename p target_path]) rest
      (("Moved path: " ++ p) :: r.1, r.2)
    else
      let r := mv_loop cd fs marked
        (trace ++ [FsOp.getcwd, FsOp.pathExists target_path, FsOp.rename p target_path]) rest
      (("Unable to move path: " ++ p ++ ": No such file or directory") :: r.1, r.2)

/-- MovemarkedCommand._move from cmd.py: the header line reads the current
directory, then the loop runs over sorted(set(marked)). -/
def mvmark_move (cd : String) (fs : Fs) (marked : List String) :
    List String × Fs × List String × List FsOp :=
  let r := mv_loop cd fs marked [FsOp.getcwd] (sorted_set marked)
  (("Moving marked paths to: " ++ cd) :: r.1, r.2)

/-- MovemarkedCommand._commandline_run from cmd.py.  The Python code
prints the nothing to move message when the marked set is empty but does
not return there, so _move still runs and yields its header line. -/
def mvmark_commandline (cd : String) (fs : Fs) (marked : List String) :
    List String × Fs × List String × List FsOp :=
  let head := if marked = [] then ["Nothing to move: no paths marked"] else []
  let r := mvmark_move cd fs marked
  (head ++ r.1, r.2)

/-! Helper lemmas about tuple_leave_unique and _toggle_choice. -/

lemma tlu_foldl_mem (xs : List String) :
    ∀ (acc : List String) (x : String),
      (x ∈ xs.foldl (fun acc y => if y ∈ acc then acc else acc ++ [y]) acc) ↔
        x ∈ acc ∨ x ∈ xs := by
  induction xs with
  | nil => intro acc x; simp
  | cons y ys ih =>
    intro acc x
    simp only [List.foldl_cons]
    by_cases hy : y ∈ acc
    · rw [if_pos hy, ih]
      simp only [List.mem_cons]
      constructor
      · rintro (h | h)
        · exact Or.inl h
        · exact Or.inr (Or.inr h)
      · rintro (h | (rfl | h))
        · exact Or.inl h
        · exact Or.inl hy
        · exact Or.inr h
    · rw [if_neg hy, ih]
      simp only [List.mem_append, List.mem_singleton, List.mem_cons]
      tauto

lemma tlu_mem (xs : List String) (x : String) :
    x ∈ tuple_leave_unique xs ↔ x ∈ xs := by
  have h := tlu_foldl_mem xs [] x
  simpa [tuple_leave_unique] using h

lemma tlu_foldl_nodup (xs : List String) :
    ∀ acc : List String, acc.Nodup →
      (xs.foldl (fun acc y => if y ∈ acc then acc else acc ++ [y]) acc).Nodup := by
  induction xs with
  | nil => intro acc h; simpa using h
  | cons y ys ih =>
    intro acc h
    simp only [List.foldl_cons]
    by_cases hy : y ∈ acc
    · rw [if_pos hy]; exact ih acc h
    · rw [if_neg hy]
      refine ih _ ?_
      simp [List.nodup_append, h, hy]

lemma tlu_nodup (xs : List String) : (tuple_leave_unique xs).Nodup :=
  tlu_foldl_nodup xs [] List.nodup_nil

lemma toggle_choice_eq (l : MenuListing) (v : String) :
    l.toggle_choice v =
      if l.read_only then l
      else
        { l with
          chosen :=
            if v ∈ l.chosen then tuple_leave_unique (l.chosen.filter (fun c => c != v))
            else tuple_leave_unique (l.chosen ++ [v]),
          is_fulfilled := l.single_choice || l.is_fulfilled } := by
  unfold MenuListing.toggle_choice
  by_cases hro : l.read_only
  · simp [hro]
  · by_cases hv : v ∈ l.chosen
    · by_cases hsc : l.single_choice <;> simp [hro, hv, hsc]
    · by_cases hsc : l.single_choice <;> simp [hro, hv, hsc]

@[simp] lemma toggle_choice_page (l : MenuListing) (v : String) :
    (l.toggle_choice v).page = l.page := by
  rw [toggle_choice_eq]; split <;> rfl

@[simp] lemma toggle_choice_choices (l : MenuListing) (v : String) :
    (l.toggle_choice v).choices = l.choices := by
  rw [toggle_choice_eq]; split <;> rfl

@[simp] lemma toggle_choice_page_size (l : MenuListing) (v : String) :
    (l.toggle_choice v).page_size = l.page_size := by
  rw [toggle_choice_eq]; split <;> rfl

@[simp] lemma toggle_choice_read_only (l : MenuListing) (v : String) :
    (l.toggle_choice v).read_only = l.read_only := by
  rw [toggle_choice_eq]; split <;> rfl

@[simp] lemma toggle_choice_single_choice (l : MenuListing) (v : String) :
    (l.toggle_choice v).single_choice = l.single_choice := by
  rw [toggle_choice_eq]; split <;> rfl

/-- C10: the Confirm step accepts exactly the two input lines y and n,
case sensitively: on any other line it stores an error message and leaves
is_confirmed and is_fulfilled unchanged; on y or n it sets is_confirmed
accordingly and fulfills the step. -/
theorem c10_confirm_input_spec (c : MenuConfirm) (line : String) :
    (line ≠ "y" → line ≠ "n" →
      c.input line = { c with error := some confirm_error_message }) ∧
    c.input "y" = { c with is_confirmed := some true, is_fulfilled := true } ∧
    c.input "n" = { c with is_confirmed := some false, is_fulfilled := true } := by
  refine ⟨fun h1 h2 => ?_, ?_, ?_⟩
  · unfold MenuConfirm.input
    rw [if_pos (not_or.mpr ⟨h1, h2⟩)]
  · rfl
  · rfl

/-- Witness for c10_confirm_input_spec: the capitalised line Y is rejected
and only stores the error message. -/
theorem c10_confirm_input_spec_witness :
    (MenuConfirm.init "sure?").input "Y" =
      { MenuConfirm.init "sure?" with error := some confirm_error_message } :=
  (c10_confirm_input_spec (MenuConfirm.init "sure?") "Y").1 (by decide) (by decide)

/-- C1 as stated is false: on a single choice listing, selecting a data
row does populate chosen (with the selected value); cmd.py itself reads
listing.chosen[0] in ChangeDirCommand._menu_run. -/
theorem c1_single_choice_chosen_populated_counterexample :
    (MenuListing.init ["t"] [("a", "va")] true [] 7 true false).single_choice = true ∧
    (MenuListing.init ["t"] [("a", "va")] true [] 7 true false).input "1" =
      Except.ok { MenuListing.init ["t"] [("a", "va")] true [] 7 true false with
        chosen := ["va"], is_fulfilled := true } ∧
    ["va"] ≠ ([] : List String) :=
  ⟨rfl, rfl, by decide⟩

/-- C1 amended: on a single choice listing that is not read only, with
chosen still empty (as construction guarantees), selecting a data row
sets chosen to exactly the selected value and fulfills the step
immediately. -/
theorem c1_single_choice_selection_sets_chosen (l : MenuListing) (v : String)
    (hsc : l.single_choice = true) (hro : l.read_only = false) (hch : l.chosen = []) :
    l.toggle_choice v = { l with chosen := [v], is_fulfilled := true } := by
  rw [toggle_choice_eq, if_neg (by simp [hro]), hch]
  simp [hsc, tuple_leave_unique]

/-- Witness for c1_single_choice_selection_sets_chosen at a concrete
single choice listing. -/
theorem c1_single_choice_selection_sets_chosen_witness :
    (MenuListing.init ["x"] [("b", "w")] true [] 7 true false).toggle_choice "w" =
      { MenuListing.init ["x"] [("b", "w")] true [] 7 true false with
        chosen := ["w"], is_fulfilled := true } :=
  c1_single_choice_selection_sets_chosen
    (MenuListing.init ["x"] [("b", "w")] true [] 7 true false) "w" rfl rfl rfl

/-- C8 as stated (for every single choice listing) is false: a read only
single choice listing renders and accepts the data row, but selecting it
is a no-op (_toggle_choice returns early), so the step is not fulfilled
and the state is unchanged. -/
theorem c8_read_only_single_choice_counterexample :
    (MenuListing.init ["t"] [("a", "va")] true [] 7 true true).single_choice = true ∧
    (MenuListing.init ["t"] [("a", "va")] true [] 7 true true).read_only = true ∧
    (MenuListing.init ["t"] [("a", "va")] true [] 7 true true).input "1" =
      Except.ok (MenuListing.init ["t"] [("a", "va")] true [] 7 true true) ∧
    (MenuListing.init ["t"] [("a", "va")] true [] 7 true true).is_fulfilled = false :=
  ⟨rfl, rfl, rfl, rfl⟩

/-- C8 amended: on a single choice listing that is not read only, with
chosen still empty, the first valid data row selection (an input line
parsing to row number n + 1 with row n on the current page) fulfills the
step and chosen holds exactly the selected row value. -/
theorem c8_first_selection_fulfills (l : MenuListing) (line : String) (n : Nat)
    (hsc : l.single_choice = true) (hro : l.read_only = false) (hch : l.chosen = [])
    (hline : pyInt line = some ((n : Int) + 1))
    (hn : n < (pySlice l.choices (l.page * (l.page_size : Int))
      (l.page * (l.page_size : Int) + (l.page_size : Int))).length) :
    l.input line = Except.ok
      { l with
        error := none,
        chosen := [((pySlice l.choices (l.page * (l.page_size : Int))
          (l.page * (l.page_size : Int) + (l.page_size : Int))).get ⟨n, hn⟩).2],
        is_fulfilled := true } := by
  simp only [MenuListing.input, hline]
  rw [if_neg (by omega)]
  have hidx : ((n : Int) + 1 - 1).toNat = n := by omega
  rw [hidx]
  have hget : l.page_handlers[n]? = some (Handler.toggle
      ((pySlice l.choices (l.page * (l.page_size : Int))
        (l.page * (l.page_size : Int) + (l.page_size : Int))).get ⟨n, hn⟩).2) := by
    unfold MenuListing.page_handlers MenuListing.render_page
    dsimp only
    rw [List.getElem?_append_left (by simp; omega),
      List.getElem?_append_left (by simp; omega),
      List.getElem?_append_left (by simp; omega),
      List.getElem?_append_left (by simp; omega),
      List.getElem?_map, List.getElem?_eq_getElem hn]
    rfl
  rw [hget]
  simp only [MenuListing.run_handler]
  rw [toggle_choice_eq, if_neg (by simp [hro])]
  simp [hch, hsc, tuple_leave_unique]

/-- Witness for c8_first_selection_fulfills at a concrete single choice
listing and the input line 1. -/
theorem c8_first_selection_fulfills_witness :
    (MenuListing.init ["x"] [("b", "w")] true [] 7 true false).input "1" =
      Except.ok
        { MenuListing.init ["x"] [("b", "w")] true [] 7 true false with
          error := none, chosen := ["w"], is_fulfilled := true } :=
  c8_first_selection_fulfills
    (MenuListing.init ["x"] [("b", "w")] true [] 7 true false) "1" 0
    rfl rfl rfl (by decide) (by decide)

/-- C6: any invalid input line to a Listing (non numeric, zero, negative,
or a number beyond the rendered row count) only stores the error message;
page, chosen and is_fulfilled are unchanged, and in particular input 0
does not wrap around to the last rendered item. -/
theorem c6_invalid_input_leaves_state (l : MenuListing) (line : String)
    (h : pyInt line = none ∨
      ∃ n : Int, pyInt line = some n ∧ (n ≤ 0 ∨ (l.page_handlers.length : Int) < n)) :
    l.input line = Except.ok { l with error := some invalid_input_message } := by
  rcases h with h | ⟨n, hn, hcase⟩
  · simp only [MenuListing.input, h]
  · simp only [MenuListing.input, hn]
    rcases hcase with hle | hgt
    · rw [if_pos (by omega)]
    · rw [if_neg (by omega)]
      have h2 : l.page_handlers[(n - 1).toNat]? = none := by
        rw [List.getElem?_eq_none]
        omega
      rw [h2]

/-- Witness for c6_invalid_input_leaves_state: the input line 0 on a
listing with one choice row. -/
theorem c6_invalid_input_leaves_state_witness :
    (MenuListing.init ["t"] [("a", "va")] false [] 7 true false).input "0" =
      Except.ok { MenuListing.init ["t"] [("a", "va")] false [] 7 true false with
        error := some invalid_input_message } :=
  c6_invalid_input_leaves_state
    (MenuListing.init ["t"] [("a", "va")] false [] 7 true false) "0"
    (Or.inr ⟨0, by decide, Or.inl (by decide)⟩)

/-- C9: change_dir resolves the target relative to the current directory
to canonical form; when the result is an existing directory the current
directory is set to it, otherwise the command fails with an error message
containing the attempted path (and, the failure being an Except.error,
makes no state change). -/
theorem c9_change_dir_spec (fs : FsGateway) (st : MoverState) (arg : String) :
    (fs.isDir (fs.realpath (os_path_join st.cd arg)) = true →
      change_dir fs st arg =
        Except.ok { st with cd := fs.realpath (os_path_join st.cd arg) }) ∧
    (fs.isDir (fs.realpath (os_path_join st.cd arg)) = false →
      change_dir fs st arg =
        Except.error ("Not an existing directory: " ++ fs.realpath (os_path_join st.cd arg)) ∧
      ∃ before : String,
        "Not an existing directory: " ++ fs.realpath (os_path_join st.cd arg) =
          before ++ fs.realpath (os_path_join st.cd arg)) := by
  constructor
  · intro h
    unfold change_dir
    rw [if_pos h]
  · intro h
    refine ⟨?_, "Not an existing directory: ", rfl⟩
    unfold change_dir
    rw [if_neg (by simp [h])]

/-- Witness for c9_change_dir_spec: a gateway on which no directory
exists rejects cd /nonexistent with a message containing the attempted
path, here the canonical /nonexistent itself. -/
theorem c9_change_dir_spec_witness :
    change_dir ⟨fun p => p, fun _ => none, fun _ => false⟩ ⟨"/cur", []⟩ "/nonexistent" =
      Except.error "Not an existing directory: /nonexistent" :=
  ((c9_change_dir_spec ⟨fun p => p, fun _ => none, fun _ => false⟩ ⟨"/cur", []⟩
    "/nonexistent").2 rfl).1

/-- C3 as stated is false: list_dir output is sorted on the prefixed
labels, so the directory row d z precedes the file row f a even though by
name a comes before z; files and directories are grouped by kind, not
interleaved by name. -/
theorem c3_listing_order_counterexample :
    list_dir ⟨fun p => p, fun p => if p = "/d" then some (["a"], ["z"]) else none,
        fun _ => true⟩ "/d" false false =
      Except.ok [("d z", "z"), ("f a", "a")] ∧
    str_lt "a" "z" :=
  ⟨rfl, by decide⟩

/-- C3 amended: the rows are exactly one d prefixed row per directory and
one f prefixed row per file, ordered by the Python tuple order on the
(prefixed label, name) pairs, which groups all directory rows before all
file rows instead of interleaving by name. -/
theorem c3_format_listing_rows (files dirs : List String) :
    (format_listing files dirs).Perm
      ((dirs.map fun d => ("d " ++ d, d)) ++ (files.map fun f => ("f " ++ f, f))) ∧
    List.Sorted pair_le (format_listing files dirs) :=
  ⟨List.perm_insertionSort pair_le _, List.sorted_insertionSort pair_le _⟩

/-- C4: the one shot move-marked on an empty marked set.  The Python
_commandline_run prints the nothing to move report but is missing a
return, so _move still runs: it emits the moving header line and reads
the current directory (one getcwd gateway call), contradicting the claim
of no further output and zero filesystem calls. -/
theorem c4_mvmark_empty_marked_behavior (cd : String) (fs : Fs) :
    mvmark_commandline cd fs [] =
      (["Nothing to move: no paths marked", "Moving marked paths to: " ++ cd],
        fs, [], [FsOp.getcwd]) := by
  rfl

lemma toggle_choice_chosen_nodup (l : MenuListing) (v : String)
    (h : l.chosen.Nodup) : (l.toggle_choice v).chosen.Nodup := by
  rw [toggle_choice_eq]
  split
  · exact h
  · by_cases hv : v ∈ l.chosen <;> simp [hv, tlu_nodup]

lemma foldl_toggle_nodup (vs : List String) : ∀ l : MenuListing, l.chosen.Nodup →
    (vs.foldl MenuListing.toggle_choice l).chosen.Nodup := by
  induction vs with
  | nil => intro l h; exact h
  | cons w ws ih =>
    intro l h
    simp only [List.foldl_cons]
    exact ih _ (toggle_choice_chosen_nodup l w h)

/-- C7: on a non single choice listing, toggling the same value twice
returns chosen to its original set of values, and any sequence of toggles
keeps chosen free of duplicates (chosen starts duplicate free: it is
either empty or built from the marked path set). -/
theorem c7_toggle_twice_and_nodup (l : MenuListing) (v : String) (vs : List String)
    (hsc : l.single_choice = false) (hnd : l.chosen.Nodup) :
    (∀ x, x ∈ ((l.toggle_choice v).toggle_choice v).chosen ↔ x ∈ l.chosen) ∧
    (vs.foldl MenuListing.toggle_choice l).chosen.Nodup := by
  refine ⟨fun x => ?_, foldl_toggle_nodup vs l hnd⟩
  by_cases hro : l.read_only = true
  · simp [toggle_choice_eq, hro]
  · rw [Bool.not_eq_true] at hro
    by_cases hv : v ∈ l.chosen
    · have h1 : (l.toggle_choice v).chosen =
          tuple_leave_unique (l.chosen.filter (fun c => c != v)) := by
        rw [toggle_choice_eq, if_neg (by simp [hro])]
        simp [hv]
      have hv2 : v ∉ (l.toggle_choice v).chosen := by
        rw [h1, tlu_mem]
        simp
      have h2 : ((l.toggle_choice v).toggle_choice v).chosen =
          tuple_leave_unique ((l.toggle_choice v).chosen ++ [v]) := by
        rw [toggle_choice_eq, if_neg (by simp [hro])]
        simp [hv2]
      rw [h2, tlu_mem, List.mem_append, h1, tlu_mem, List.mem_filter]
      by_cases hx : x = v
      · subst hx; simp [hv]
      · simp [hx, bne_iff_ne]
    · have h1 : (l.toggle_choice v).chosen = tuple_leave_unique (l.chosen ++ [v]) := by
        rw [toggle_choice_eq, if_neg (by simp [hro])]
        simp [hv]
      have hv2 : v ∈ (l.toggle_choice v).chosen := by
        rw [h1, tlu_mem]
        simp
      have h2 : ((l.toggle_choice v).toggle_choice v).chosen =
          tuple_leave_unique ((l.toggle_choice v).chosen.filter (fun c => c != v)) := by
        rw [toggle_choice_eq, if_neg (by simp [hro])]
        simp [hv2]
      rw [h2, tlu_mem, List.mem_filter, h1, tlu_mem, List.mem_append]
      by_cases hx : x = v
      · subst hx; simp [hv]
      · simp [hx, bne_iff_ne]

/-- Witness for c7_toggle_twice_and_nodup at a concrete multi select
listing with one value already chosen. -/
theorem c7_toggle_twice_and_nodup_witness :
    ("a" ∈ (((MenuListing.init ["t"] [("a", "a"), ("b", "b")] false ["a"] 7 true
        false).toggle_choice "a").toggle_choice "a").chosen ↔
      "a" ∈ (MenuListing.init ["t"] [("a", "a"), ("b", "b")] false ["a"] 7 true
        false).chosen) ∧
    ((["b", "a", "b"].foldl MenuListing.toggle_choice
      (MenuListing.init ["t"] [("a", "a"), ("b", "b")] false ["a"] 7 true
        false)).chosen).Nodup :=
  ⟨(c7_toggle_twice_and_nodup
      (MenuListing.init ["t"] [("a", "a"), ("b", "b")] false ["a"] 7 true false)
      "a" ["b", "a", "b"] rfl (by decide)).1 "a",
    (c7_toggle_twice_and_nodup
      (MenuListing.init ["t"] [("a", "a"), ("b", "b")] false ["a"] 7 true false)
      "a" ["b", "a", "b"] rfl (by decide)).2⟩

lemma mem_ite_singleton {α : Type} {c : Prop} [Decidable c] {x y : α}
    (h : x ∈ if c then [y] else []) : c ∧ x = y := by
  by_cases hc : c
  · rw [if_pos hc] at h
    exact ⟨hc, List.mem_singleton.mp h⟩
  · rw [if_neg hc] at h
    exact absurd h (List.not_mem_nil x)

lemma incPage_mem_handlers (l : MenuListing) (i : Int)
    (h : Handler.incPage i ∈ l.page_handlers) :
    (i = -1 ∧ 0 < l.page) ∨
    (i = 1 ∧ l.page * (l.page_size : Int) + (l.page_size : Int) < (l.choices.length : Int)) := by
  unfold MenuListing.page_handlers MenuListing.render_page at h
  dsimp only at h
  rcases List.mem_append.mp h with h | h
  · rcases List.mem_append.mp h with h | h
    · rcases List.mem_append.mp h with h | h
      · rcases List.mem_append.mp h with h | h
        · obtain ⟨tv, _, htv⟩ := List.mem_map.mp h
          exact absurd htv (by simp)
        · obtain ⟨_, heq⟩ := mem_ite_singleton h
          exact absurd heq (by simp)
      · obtain ⟨hc, heq⟩ := mem_ite_singleton h
        injection heq with h2
        exact Or.inl ⟨h2, hc⟩
    · obtain ⟨hc, heq⟩ := mem_ite_singleton h
      injection heq with h2
      exact Or.inr ⟨h2, hc⟩
  · obtain ⟨_, heq⟩ := mem_ite_singleton h
    exact absurd heq (by simp)

lemma input_ok_shape (l : MenuListing) (line : String) (l2 : MenuListing)
    (h : l.input line = Except.ok l2) :
    l2 = { l with error := some invalid_input_message } ∨
    (∃ v, l2 = MenuListing.toggle_choice { l with error := none } v) ∨
    l2 = { l with error := none, is_fulfilled := true } ∨
    (∃ i, Handler.incPage i ∈ l.page_handlers ∧
      l2 = { l with error := none, page := l.page + i }) := by
  unfold MenuListing.input at h
  split at h
  · injection h with h
    exact Or.inl h.symm
  · split at h
    · injection h with h
      exact Or.inl h.symm
    · split at h
      · injection h with h
        exact Or.inl h.symm
      · rename_i hdl hget
        cases hdl with
        | toggle v =>
          simp only [MenuListing.run_handler] at h
          injection h with h
          exact Or.inr (Or.inl ⟨v, h.symm⟩)
        | fulfill =>
          simp only [MenuListing.run_handler] at h
          injection h with h
          exact Or.inr (Or.inr (Or.inl h.symm))
        | incPage i =>
          simp only [MenuListing.run_handler] at h
          injection h with h
          refine Or.inr (Or.inr (Or.inr ⟨i, ?_, h.symm⟩))
          exact List.getElem?_mem hget
        | exit =>
          simp only [MenuListing.run_handler] at h
          exact absurd h (by simp)

/-- The amended page invariant: page stays in the interval from 0 to
max(page_count, 1); the max accounts for a listing with no choices, where
page_count is 0 but page is 0. -/
def page_ok (l : MenuListing) : Prop :=
  0 ≤ l.page ∧ l.page < ((max l.page_count 1 : Nat) : Int)

lemma page_ok_of_eq (la lb : MenuListing) (hp : lb.page = la.page)
    (hc : lb.choices = la.choices) (hs : lb.page_size = la.page_size)
    (h : page_ok la) : page_ok lb := by
  unfold page_ok MenuListing.page_count at h ⊢
  rw [hp, hc, hs]
  exact h

lemma page_ok_incPage (l : MenuListing) (i : Int) (hps : 0 < l.page_size)
    (hok : page_ok l)
    (heff : (i = -1 ∧ 0 < l.page) ∨
      (i = 1 ∧ l.page * (l.page_size : Int) + (l.page_size : Int) < (l.choices.length : Int))) :
    page_ok { l with error := none, page := l.page + i } := by
  have hpc : ({ l with error := none, page := l.page + i } : MenuListing).page_count
      = l.page_count := rfl
  unfold page_ok
  dsimp only
  rw [hpc]
  obtain ⟨h0, hlt⟩ := hok
  rcases heff with ⟨rfl, hpage⟩ | ⟨rfl, hnext⟩
  · omega
  · have hpn : l.page = ((l.page.toNat : Nat) : Int) := by omega
    rw [hpn] at hnext
    have hlen : l.page.toNat * l.page_size + l.page_size < l.choices.length := by
      exact_mod_cast hnext
    have hdiv : l.page.toNat + 2 ≤ l.page_count := by
      unfold MenuListing.page_count
      rw [Nat.le_div_iff_mul_le hps]
      calc (l.page.toNat + 2) * l.page_size
          = (l.page.toNat * l.page_size + l.page_size) + l.page_size := by ring
        _ ≤ (l.choices.length - 1) + l.page_size := by omega
        _ ≤ l.choices.length + l.page_size - 1 := by omega
    omega

lemma input_preserves_page_ok (l : MenuListing) (line : String) (l2 : MenuListing)
    (hps : 0 < l.page_size) (hok : page_ok l) (h : l.input line = Except.ok l2) :
    page_ok l2 ∧ l2.choices = l.choices ∧ l2.page_size = l.page_size := by
  rcases input_ok_shape l line l2 h with rfl | ⟨v, rfl⟩ | rfl | ⟨i, hmem, rfl⟩
  · exact ⟨page_ok_of_eq l _ rfl rfl rfl hok, rfl, rfl⟩
  · exact ⟨page_ok_of_eq l _ (by simp) (by simp) (by simp) hok, by simp, by simp⟩
  · exact ⟨page_ok_of_eq l _ rfl rfl rfl hok, rfl, rfl⟩
  · exact ⟨page_ok_incPage l i hps hok (incPage_mem_handlers l i hmem), rfl, rfl⟩

lemma steps_page_ok (lines : List String) :
    ∀ l : MenuListing, 0 < l.page_size → page_ok l →
      page_ok (l.steps lines) ∧ (l.steps lines).choices = l.choices ∧
        (l.steps lines).page_size = l.page_size := by
  induction lines with
  | nil => intro l _ hok; exact ⟨hok, rfl, rfl⟩
  | cons line rest ih =>
    intro l hps hok
    unfold MenuListing.steps
    cases hstep : l.input line with
    | ok l2 =>
      obtain ⟨hok2, hc2, hs2⟩ := input_preserves_page_ok l line l2 hps hok hstep
      obtain ⟨hok3, hc3, hs3⟩ := ih l2 (hs2 ▸ hps) hok2
      exact ⟨hok3, hc3.trans hc2, hs3.trans hs2⟩
    | error s => exact ih l hps hok

/-- C2 as stated is false for a listing with no choices: page_count is 0
while page is 0, so page is not in the half open interval from 0 to
page_count.  Such a listing is reachable: listing an empty directory
builds a read only MenuListing over an empty choices tuple. -/
theorem c2_empty_choices_counterexample :
    (MenuListing.init ["Listing /e"] [] false [] 7 true true).page = 0 ∧
    (MenuListing.init ["Listing /e"] [] false [] 7 true true).page_count = 0 ∧
    ¬ ((MenuListing.init ["Listing /e"] [] false [] 7 true true).page <
        ((MenuListing.init ["Listing /e"] [] false [] 7 true true).page_count : Int)) :=
  ⟨rfl, rfl, by decide⟩

/-- C2 amended: for every listing with a positive page size and every
sequence of raw input lines, page stays in the interval from 0 to
max(page_count, 1) (so page is in [0, page_count) whenever choices is
nonempty, and page stays 0 when choices is empty), and a listing whose
choices fit on one page has page 0 and renders no page changing
handlers, hence no pagination controls. -/
theorem c2_page_invariant (title : List String) (choices : List (String × String))
    (sc : Bool) (ch : List String) (ps : Nat) (we ro : Bool) (lines : List String)
    (hps : 0 < ps) :
    (0 ≤ ((MenuListing.init title choices sc ch ps we ro).steps lines).page ∧
      ((MenuListing.init title choices sc ch ps we ro).steps lines).page <
        ((max ((MenuListing.init title choices sc ch ps we ro).steps lines).page_count 1 :
          Nat) : Int)) ∧
    (choices.length ≤ ps →
      ((MenuListing.init title choices sc ch ps we ro).steps lines).page = 0 ∧
      ∀ i : Int, Handler.incPage i ∉
        ((MenuListing.init title choices sc ch ps we ro).steps lines).page_handlers) := by
  have hinit : page_ok (MenuListing.init title choices sc ch ps we ro) := by
    unfold page_ok
    constructor
    · exact le_refl 0
    · show (0 : Int) <
        ((max (MenuListing.init title choices sc ch ps we ro).page_count 1 : Nat) : Int)
      have h1 : (1 : Nat) ≤ max (MenuListing.init title choices sc ch ps we ro).page_count 1 :=
        le_max_right _ _
      omega
  obtain ⟨hok, hc, hs⟩ := steps_page_ok lines (MenuListing.init title choices sc ch ps we ro)
    hps hinit
  refine ⟨hok, fun hfit => ?_⟩
  have hpc : ((MenuListing.init title choices sc ch ps we ro).steps lines).page_count ≤ 1 := by
    unfold MenuListing.page_count
    rw [hc, hs]
    dsimp only [MenuListing.init]
    have h2 : (choices.length + ps - 1) / ps ≤ (2 * ps - 1) / ps :=
      Nat.div_le_div_right (by omega)
    have h3 : (2 * ps - 1) / ps < 2 := by
      rw [Nat.div_lt_iff_lt_mul hps]
      omega
    omega
  have hpage : ((MenuListing.init title choices sc ch ps we ro).steps lines).page = 0 := by
    obtain ⟨h0, hlt⟩ := hok
    omega
  refine ⟨hpage, fun i hmem => ?_⟩
  rcases incPage_mem_handlers _ i hmem with ⟨_, hpos⟩ | ⟨_, hnext⟩
  · omega
  · rw [hpage, hc, hs] at hnext
    dsimp only [MenuListing.init] at hnext
    simp only [zero_mul, zero_add] at hnext
    omega

/-- Witness for c2_page_invariant at a concrete one page listing fed one
selection input. -/
theorem c2_page_invariant_witness :
    ((MenuListing.init ["t"] [("a", "va")] false [] 7 true false).steps ["1"]).page = 0 :=
  ((c2_page_invariant ["t"] [("a", "va")] false [] 7 true false ["1"] (by decide)).2
    (by decide)).1

/-- The three per item status lines _move can yield for a path. -/
def status_line_for (p line : String) : Prop :=
  line = "Moved path: " ++ p ∨
  line = "Unable to move path: " ++ p ++ ": File exists" ∨
  line = "Unable to move path: " ++ p ++ ": No such file or directory"

lemma mv_loop_cons_target_exists (cd : String) (fs : Fs) (marked : List String)
    (trace : List FsOp) (p : String) (rest : List String)
    (h : mv_target cd p ∈ fs.existing) :
    mv_loop cd fs marked trace (p :: rest) =
      (("Unable to move path: " ++ p ++ ": File exists") ::
        (mv_loop cd fs marked
          (trace ++ [FsOp.getcwd, FsOp.pathExists (mv_target cd p)]) rest).1,
       (mv_loop cd fs marked
          (trace ++ [FsOp.getcwd, FsOp.pathExists (mv_target cd p)]) rest).2) := by
  conv_lhs => rw [mv_loop]
  dsimp only
  rw [if_pos h]

lemma mv_loop_cons_move (cd : String) (fs : Fs) (marked : List String)
    (trace : List FsOp) (p : String) (rest : List String)
    (h1 : mv_target cd p ∉ fs.existing) (h2 : p ∈ fs.existing) :
    mv_loop cd fs marked trace (p :: rest) =
      (("Moved path: " ++ p) ::
        (mv_loop cd ⟨fs.existing.filter (fun q => q != p) ++ [mv_target cd p]⟩
          (marked.filter (fun q => q != p))
          (trace ++ [FsOp.getcwd, FsOp.pathExists (mv_target cd p),
            FsOp.rename p (mv_target cd p)]) rest).1,
       (mv_loop cd ⟨fs.existing.filter (fun q => q != p) ++ [mv_target cd p]⟩
          (marked.filter (fun q => q != p))
          (trace ++ [FsOp.getcwd, FsOp.pathExists (mv_target cd p),
            FsOp.rename p (mv_target cd p)]) rest).2) := by
  conv_lhs => rw [mv_loop]
  dsimp only
  rw [if_neg h1, if_pos h2]

lemma mv_loop_cons_src_missing (cd : String) (fs : Fs) (marked : List String)
    (trace : List FsOp) (p : String) (rest : List String)
    (h1 : mv_target cd p ∉ fs.existing) (h2 : p ∉ fs.existing) :
    mv_loop cd fs marked trace (p :: rest) =
      (("Unable to move path: " ++ p ++ ": No such file or directory") ::
        (mv_loop cd fs marked
          (trace ++ [FsOp.getcwd, FsOp.pathExists (mv_target cd p),
            FsOp.rename p (mv_target cd p)]) rest).1,
       (mv_loop cd fs marked
          (trace ++ [FsOp.getcwd, FsOp.pathExists (mv_target cd p),
            FsOp.rename p (mv_target cd p)]) rest).2) := by
  conv_lhs => rw [mv_loop]
  dsimp only
  rw [if_neg h1, if_neg h2]

lemma mv_loop_length_status (cd : String) :
    ∀ (order : List String) (fs : Fs) (marked : List String) (trace : List FsOp),
      (mv_loop cd fs marked trace order).1.length = order.length ∧
      ∀ i (hi : i < order.length) (hj : i < (mv_loop cd fs marked trace order).1.length),
        status_line_for (order.get ⟨i, hi⟩)
          ((mv_loop cd fs marked trace order).1.get ⟨i, hj⟩) := by
  intro order
  induction order with
  | nil =>
    intro fs marked trace
    refine ⟨rfl, fun i hi hj => ?_⟩
    exact absurd hi (by simp)
  | cons p rest ih =>
    intro fs marked trace
    by_cases h1 : mv_target cd p ∈ fs.existing
    · rw [mv_loop_cons_target_exists cd fs marked trace p rest h1]
      refine ⟨by simp [(ih fs marked _).1], fun i hi hj => ?_⟩
      cases i with
      | zero => exact Or.inr (Or.inl rfl)
      | succ k =>
        exact (ih fs marked _).2 k (Nat.lt_of_succ_lt_succ hi)
          (Nat.lt_of_succ_lt_succ hj)
    · by_cases h2 : p ∈ fs.existing
      · rw [mv_loop_cons_move cd fs marked trace p rest h1 h2]
        refine ⟨by simp [(ih _ _ _).1], fun i hi hj => ?_⟩
        cases i with
        | zero => exact Or.inl rfl
        | succ k =>
          exact (ih _ _ _).2 k (Nat.lt_of_succ_lt_succ hi)
            (Nat.lt_of_succ_lt_succ hj)
      · rw [mv_loop_cons_src_missing cd fs marked trace p rest h1 h2]
        refine ⟨by simp [(ih fs marked _).1], fun i hi hj => ?_⟩
        cases i with
        | zero => exact Or.inr (Or.inr rfl)
        | succ k =>
          exact (ih fs marked _).2 k (Nat.lt_of_succ_lt_succ hi)
            (Nat.lt_of_succ_lt_succ hj)

lemma mv_loop_marked_or_moved (cd : String) :
    ∀ (order : List String) (fs : Fs) (marked : List String) (trace : List FsOp) (p : String),
      p ∈ marked →
      p ∈ (mv_loop cd fs marked trace order).2.2.1 ∨
      ("Moved path: " ++ p) ∈ (mv_loop cd fs marked trace order).1 := by
  intro order
  induction order with
  | nil => intro fs marked trace p hp; exact Or.inl hp
  | cons q rest ih =>
    intro fs marked trace p hp
    by_cases h1 : mv_target cd q ∈ fs.existing
    · rw [mv_loop_cons_target_exists cd fs marked trace q rest h1]
      rcases ih fs marked _ p hp with h | h
      · exact Or.inl h
      · exact Or.inr (List.mem_cons_of_mem _ h)
    · by_cases h2 : q ∈ fs.existing
      · rw [mv_loop_cons_move cd fs marked trace q rest h1 h2]
        by_cases hpq : p = q
        · subst hpq
          exact Or.inr (List.mem_cons_self _ _)
        · have hp2 : p ∈ marked.filter (fun x => x != q) := by
            rw [List.mem_filter]
            exact ⟨hp, by simp [hpq]⟩
          rcases ih _ _ _ p hp2 with h | h
          · exact Or.inl h
          · exact Or.inr (List.mem_cons_of_mem _ h)
      · rw [mv_loop_cons_src_missing cd fs marked trace q rest h1 h2]
        rcases ih fs marked _ p hp with h | h
        · exact Or.inl h
        · exact Or.inr (List.mem_cons_of_mem _ h)

/-- C5: move-marked processes the marked paths in Python sorted order of
the stored (canonical) paths: the output is the header line followed by
exactly one status line per distinct marked path, in that order, and the
processing order is sorted and covers exactly the marked set.  At any
step whose destination path already exists, that single item fails with
the File exists error while the filesystem and the marked set pass to the
rest of the loop unchanged (nothing is overwritten, the path stays
marked); a step whose destination is free moves the path (the source
is renamed to the destination) and removes exactly it from the marked
set; and a marked path disappears from the final marked set only if its
Moved status line was emitted. -/
theorem c5_mvmark_sorted_and_per_item (cd : String) (fs : Fs) (marked : List String) :
    ((mvmark_move cd fs marked).1.length = (sorted_set marked).length + 1 ∧
      List.Sorted str_le (sorted_set marked) ∧
      (∀ p, p ∈ sorted_set marked ↔ p ∈ marked)) ∧
    (∀ i (hi : i < (sorted_set marked).length)
        (hj : i + 1 < (mvmark_move cd fs marked).1.length),
      status_line_for ((sorted_set marked).get ⟨i, hi⟩)
        ((mvmark_move cd fs marked).1.get ⟨i + 1, hj⟩)) ∧
    (∀ (fs2 : Fs) (marked2 : List String) (trace : List FsOp) (p : String)
        (rest : List String), mv_target cd p ∈ fs2.existing →
      mv_loop cd fs2 marked2 trace (p :: rest) =
        (("Unable to move path: " ++ p ++ ": File exists") ::
          (mv_loop cd fs2 marked2
            (trace ++ [FsOp.getcwd, FsOp.pathExists (mv_target cd p)]) rest).1,
         (mv_loop cd fs2 marked2
            (trace ++ [FsOp.getcwd, FsOp.pathExists (mv_target cd p)]) rest).2)) ∧
    (∀ (fs2 : Fs) (marked2 : List String) (trace : List FsOp) (p : String)
        (rest : List String), mv_target cd p ∉ fs2.existing → p ∈ fs2.existing →
      mv_loop cd fs2 marked2 trace (p :: rest) =
        (("Moved path: " ++ p) ::
          (mv_loop cd ⟨fs2.existing.filter (fun q => q != p) ++ [mv_target cd p]⟩
            (marked2.filter (fun q => q != p))
            (trace ++ [FsOp.getcwd, FsOp.pathExists (mv_target cd p),
              FsOp.rename p (mv_target cd p)]) rest).1,
         (mv_loop cd ⟨fs2.existing.filter (fun q => q != p) ++ [mv_target cd p]⟩
            (marked2.filter (fun q => q != p))
            (trace ++ [FsOp.getcwd, FsOp.pathExists (mv_target cd p),
              FsOp.rename p (mv_target cd p)]) rest).2)) ∧
    (∀ p, p ∈ marked →
      p ∈ (mvmark_move cd fs marked).2.2.1 ∨
      ("Moved path: " ++ p) ∈ (mvmark_move cd fs marked).1) := by
  refine ⟨⟨?_, ?_, ?_⟩, ?_, ?_, ?_, ?_⟩
  · show ((("Moving marked paths to: " ++ cd) ::
      (mv_loop cd fs marked [FsOp.getcwd] (sorted_set marked)).1).length) = _
    rw [List.length_cons,
      (mv_loop_length_status cd (sorted_set marked) fs marked [FsOp.getcwd]).1]
  · exact List.sorted_insertionSort str_le (tuple_leave_unique marked)
  · intro p
    exact ((List.perm_insertionSort str_le (tuple_leave_unique marked)).mem_iff).trans
      (tlu_mem marked p)
  · intro i hi hj
    exact (mv_loop_length_status cd (sorted_set marked) fs marked [FsOp.getcwd]).2 i hi
      (Nat.lt_of_succ_lt_succ hj)
  · intro fs2 marked2 trace p rest h
    exact mv_loop_cons_target_exists cd fs2 marked2 trace p rest h
  · intro fs2 marked2 trace p rest h1 h2
    exact mv_loop_cons_move cd fs2 marked2 trace p rest h1 h2
  · intro p hp
    rcases mv_loop_marked_or_moved cd (sorted_set marked) fs marked [FsOp.getcwd] p hp
      with h | h
    · exact Or.inl h
    · exact Or.inr (List.mem_cons_of_mem _ h)

/-- Witness for c5_mvmark_sorted_and_per_item: a step on a concrete state
where the destination /dest/x of the marked path /a/x already exists: the
item fails with File exists, stays marked, and the filesystem is passed
on unchanged. -/
theorem c5_mvmark_sorted_and_per_item_witness :
    mv_loop "/dest" (Fs.mk ["/dest/x", "/a/x"]) ["/a/x"] [FsOp.getcwd] ["/a/x"] =
      (["Unable to move path: /a/x: File exists"], Fs.mk ["/dest/x", "/a/x"],
        ["/a/x"], [FsOp.getcwd, FsOp.getcwd, FsOp.pathExists "/dest/x"]) :=
  (c5_mvmark_sorted_and_per_item "/dest" (Fs.mk ["/dest/x", "/a/x"])
    ["/a/x"]).2.2.1 (Fs.mk ["/dest/x", "/a/x"]) ["/a/x"] [FsOp.getcwd] "/a/x" []
    (by decide)
